import Mathlib

/-!
Verification of `kingpin/actors/aws/api_call_queue.py` (the Adaptive-Backoff
Serialized Call Dispatcher).

The delay arithmetic of the Python code (`/= 2`, `*= 2`, `min`, `max` on values
reachable from `0.25`, `30` and `0`) is exact in IEEE doubles, so delays are
embedded as rationals `ℚ`.  The retry loop `_call` is embedded as a function
over a finite script of attempt outcomes (one entry per execution of the
callable in the worker pool), threading the backoff delay and counting the
calls to `increase_delay` / `decrease_delay`.  The dispatcher `_process_queue`
is a single sequential loop in the source (one tornado coroutine), so it is
embedded as sequential processing of the pending-call list, producing the list
of (caller id, delivered object) pairs in delivery order.
-/

namespace Kingpin

/-- `self.delay_min = 0.25` -/
def delay_min : ℚ := 1/4

/-- `self.delay_max = 30` -/
def delay_max : ℚ := 30

/-- `self.boto2_throttle_strings` -/
def boto2_throttle_strings : List String :=
  ["Throttling", "Rate exceeded", "reached max retries"]

/-- `decrease_delay(self)`:
```
if self.delay == 0: return
if self.delay == self.delay_min: self.delay = 0; return
self.delay /= 2
self.delay = max(self.delay, self.delay_min)
``` -/
def decrease_delay (delay : ℚ) : ℚ :=
  if delay = 0 then delay
  else if delay = delay_min then 0
  else max (delay / 2) delay_min

/-- `increase_delay(self)`:
```
if self.delay == 0: self.delay = self.delay_min; return
self.delay *= 2
self.delay = min(self.delay, self.delay_max)
``` -/
def increase_delay (delay : ℚ) : ℚ :=
  if delay = 0 then delay_min
  else min (delay * 2) delay_max

/-- One of the two mutations of the backoff state. -/
inductive DelayOp where
  | inc
  | dec
  deriving DecidableEq

def applyOp (d : ℚ) : DelayOp → ℚ
  | .inc => increase_delay d
  | .dec => decrease_delay d

/-- Apply a finite sequence of `increase_delay` / `decrease_delay` mutations. -/
def applyOps (d : ℚ) (ops : List DelayOp) : ℚ :=
  ops.foldl applyOp d

lemma applyOp_invariant {d : ℚ}
    (h : d = 0 ∨ (delay_min ≤ d ∧ d ≤ delay_max)) (op : DelayOp) :
    applyOp d op = 0 ∨ (delay_min ≤ applyOp d op ∧ applyOp d op ≤ delay_max) := by
  have hmm : delay_min ≤ delay_max := by norm_num [delay_min, delay_max]
  have hm0 : (0:ℚ) < delay_min := by norm_num [delay_min]
  cases op with
  | inc =>
    rcases h with h | ⟨h1, h2⟩
    · right
      simp only [applyOp, increase_delay, if_pos h]
      exact ⟨le_refl _, hmm⟩
    · right
      have hne : d ≠ 0 := by intro h0; rw [h0] at h1; linarith
      simp only [applyOp, increase_delay]
      rw [if_neg hne]
      exact ⟨le_min (by linarith) hmm, min_le_right _ _⟩
  | dec =>
    rcases h with h | ⟨h1, h2⟩
    · left
      simp [applyOp, decrease_delay, h]
    · by_cases h0 : d = 0
      · left
        simp [applyOp, decrease_delay, h0]
      · by_cases hmin : d = delay_min
        · left
          simp only [applyOp, decrease_delay]
          rw [if_neg h0, if_pos hmin]
        · right
          simp only [applyOp, decrease_delay]
          rw [if_neg h0, if_neg hmin]
          exact ⟨le_max_right _ _, max_le (by linarith) hmm⟩

lemma applyOps_invariant (ops : List DelayOp) :
    ∀ d : ℚ, (d = 0 ∨ (delay_min ≤ d ∧ d ≤ delay_max)) →
      (applyOps d ops = 0 ∨ (delay_min ≤ applyOps d ops ∧ applyOps d ops ≤ delay_max)) := by
  induction ops with
  | nil => intro d h; exact h
  | cons op rest ih =>
    intro d h
    rw [applyOps, List.foldl_cons]
    exact ih _ (applyOp_invariant h op)

/-- C2: Starting from the initial state `delay = 0`, after any finite sequence of
`increase_delay` and `decrease_delay` operations the delay is either exactly `0`
or lies within `[0.25, 30]`; no reachable state is strictly between `0` and
`0.25` or above `30`. -/
theorem kingpin_C2_delay_invariant (ops : List DelayOp) :
    applyOps 0 ops = 0 ∨ (delay_min ≤ applyOps 0 ops ∧ applyOps 0 ops ≤ delay_max) :=
  applyOps_invariant ops 0 (Or.inl rfl)

/-- C3: Starting from `delay = 0`, the value after `n + 1` successive
`increase_delay` calls is `min (2 ^ n * delay_min) delay_max`: that is,
`0.25, 0.5, 1, 2, 4, 8, 16, 30, 30, …` — the first call sets `delay_min`, each
subsequent call doubles capped at `delay_max = 30`, and once there it stays. -/
theorem kingpin_C3_increase_sequence (n : ℕ) :
    increase_delay^[n + 1] 0 = min ((2 ^ n : ℚ) * delay_min) delay_max := by
  induction n with
  | zero =>
    rw [Function.iterate_one]
    norm_num [increase_delay, delay_min, delay_max, min_def]
  | succ n ih =>
    rw [Function.iterate_succ_apply', ih]
    have hm0 : (0:ℚ) < delay_min := by norm_num [delay_min]
    have hM0 : (0:ℚ) < delay_max := by norm_num [delay_max]
    have hp : (0:ℚ) < 2 ^ n * delay_min := mul_pos (by positivity) hm0
    have hpos : (0:ℚ) < min ((2 ^ n : ℚ) * delay_min) delay_max := lt_min hp hM0
    simp only [increase_delay]
    rw [if_neg (ne_of_gt hpos)]
    have hpow : (2 ^ (n + 1) : ℚ) * delay_min = (2 ^ n * delay_min) * 2 := by ring
    rcases le_total ((2 ^ n : ℚ) * delay_min) delay_max with hle | hle
    · rw [min_eq_left hle, hpow]
    · rw [min_eq_right hle, hpow]
      rw [min_eq_right (by linarith), min_eq_right (by linarith)]

lemma decrease_delay_zero_iter (k : ℕ) : decrease_delay^[k] 0 = 0 := by
  induction k with
  | zero => rfl
  | succ k ih =>
    rw [Function.iterate_succ_apply', ih, decrease_delay, if_pos rfl]

lemma dstep1 : decrease_delay delay_max = 15 := by
  simp only [decrease_delay, delay_min, delay_max]
  norm_num [max_def]

lemma dstep2 : decrease_delay 15 = 15/2 := by
  simp only [decrease_delay, delay_min]
  norm_num [max_def]

lemma dstep3 : decrease_delay (15/2) = 15/4 := by
  simp only [decrease_delay, delay_min]
  norm_num [max_def]

lemma dstep4 : decrease_delay (15/4) = 15/8 := by
  simp only [decrease_delay, delay_min]
  norm_num [max_def]

lemma dstep5 : decrease_delay (15/8) = 15/16 := by
  simp only [decrease_delay, delay_min]
  norm_num [max_def]

lemma dstep6 : decrease_delay (15/16) = 15/32 := by
  simp only [decrease_delay, delay_min]
  norm_num [max_def]

lemma dstep7 : decrease_delay (15/32) = delay_min := by
  simp only [decrease_delay, delay_min]
  norm_num [max_def]

lemma dstep8 : decrease_delay delay_min = 0 := by
  simp only [decrease_delay, delay_min]
  norm_num

/-- C4: Starting from `delay = 30`, the value after `n` successive
`decrease_delay` calls is `30 / 2 ^ n` for `n ≤ 6` (`15, 7.5, 3.75, 1.875,
0.9375, 0.46875`), `0.25` at `n = 7` (halving floored at `delay_min`), and `0`
for every `n ≥ 8` (a call at exactly `delay_min` zeroes the delay, and at `0`
every further call is a no-op). -/
theorem kingpin_C4_decrease_sequence (n : ℕ) :
    decrease_delay^[n] delay_max =
      if n ≤ 6 then 30 / 2 ^ n else if n = 7 then delay_min else 0 := by
  match n with
  | 0 =>
    show delay_max = _
    norm_num [delay_max]
  | 1 =>
    show decrease_delay delay_max = _
    rw [dstep1]
    norm_num
  | 2 =>
    show decrease_delay (decrease_delay delay_max) = _
    rw [dstep1, dstep2]
    norm_num
  | 3 =>
    show decrease_delay (decrease_delay (decrease_delay delay_max)) = _
    rw [dstep1, dstep2, dstep3]
    norm_num
  | 4 =>
    show decrease_delay (decrease_delay (decrease_delay (decrease_delay delay_max))) = _
    rw [dstep1, dstep2, dstep3, dstep4]
    norm_num
  | 5 =>
    show decrease_delay (decrease_delay (decrease_delay (decrease_delay (decrease_delay
      delay_max)))) = _
    rw [dstep1, dstep2, dstep3, dstep4, dstep5]
    norm_num
  | 6 =>
    show decrease_delay (decrease_delay (decrease_delay (decrease_delay (decrease_delay
      (decrease_delay delay_max))))) = _
    rw [dstep1, dstep2, dstep3, dstep4, dstep5, dstep6]
    norm_num
  | 7 =>
    show decrease_delay (decrease_delay (decrease_delay (decrease_delay (decrease_delay
      (decrease_delay (decrease_delay delay_max)))))) = _
    rw [dstep1, dstep2, dstep3, dstep4, dstep5, dstep6, dstep7]
    norm_num
  | (k + 8) =>
    rw [Function.iterate_add_apply]
    have h8 : decrease_delay^[8] delay_max = 0 := by
      show decrease_delay (decrease_delay (decrease_delay (decrease_delay (decrease_delay
        (decrease_delay (decrease_delay (decrease_delay delay_max))))))) = 0
      rw [dstep1, dstep2, dstep3, dstep4, dstep5, dstep6, dstep7, dstep8]
    rw [h8, decrease_delay_zero_iter, if_neg (by omega), if_neg (by omega)]

/-- A Python object as far as this dispatcher can distinguish it: either an
ordinary (non-exception) value, or one of the exception shapes the code
branches on.  `botoServerError` carries the fields `_call` inspects on a boto2
`BotoServerError` (`status`, `reason`, `error_code`, `message`); `clientError`
carries `response['Error']['Code']` of a botocore `ClientError`;
`invalidCredentials` is `kingpin.actors.exceptions.InvalidCredentials`;
`otherExc` is an exception of any other class. -/
inductive PyObject where
  | obj (payload : String)
  | botoServerError (status : ℕ) (reason : String) (error_code : Option String) (message : String)
  | clientError (code : String)
  | invalidCredentials (msg : String)
  | otherExc (payload : String)
  deriving DecidableEq, Repr

/-- `isinstance(result, Exception)`: everything but an ordinary value. -/
def isinstance_Exception : PyObject → Bool
  | .obj _ => false
  | _ => true

/-- Outcome of one execution of the submitted callable in the worker pool:
it either returned a value or raised an exception. -/
inductive AttemptOutcome where
  | ok (v : PyObject)
  | raised (e : PyObject)
  deriving DecidableEq, Repr

/-- `e.error_code in self.boto2_throttle_strings` (`None in (...)` is false). -/
def is_boto2_throttle : Option String → Bool
  | some c => boto2_throttle_strings.contains c
  | none => false

/-- Python `'%s' % code` for an optional error code (`None` formats as "None"). -/
def pyFormat : Option String → String
  | some c => c
  | none => "None"

/-- The observable effect of running `_call` on one dequeued entry: the object
put into the entry's result queue by `_process_queue` (the return value of
`_call`, or the exception it raised, caught there by `except BaseException`);
`none` when the attempt script ran out while `_call` was still retrying.  The
final backoff delay and the number of `increase_delay` / `decrease_delay`
invocations are recorded alongside. -/
structure CallOutcome where
  result : Option PyObject
  delay : ℚ
  increases : ℕ
  decreases : ℕ
  deriving DecidableEq, Repr

/-- `_call(self, api_function, *args, **kwargs)`: the retry loop, driven by the
script of successive attempt outcomes.  Success: `decrease_delay` then return.
`BotoServerError`: throttle code → `increase_delay`, sleep, retry; blank 400 →
`InvalidCredentials('Access credentials have expired')`; 403 →
`InvalidCredentials('%s: %s' % (error_code, message))`; then `decrease_delay`
and raise.  `ClientError`: code `'Throttling'` → `increase_delay`, sleep,
retry; else `decrease_delay` and raise.  Any other exception class matches
neither `except` clause and propagates with no delay adjustment. -/
def _call (delay : ℚ) : List AttemptOutcome → CallOutcome
  | [] => ⟨none, delay, 0, 0⟩
  | .ok v :: _ => ⟨some v, decrease_delay delay, 0, 1⟩
  | .raised e :: rest =>
    match e with
    | .botoServerError status reason code msg =>
      if is_boto2_throttle code then
        let r := _call (increase_delay delay) rest
        { r with increases := r.increases + 1 }
      else if status = 400 ∧ reason = "Bad Request" ∧ code = none then
        ⟨some (.invalidCredentials "Access credentials have expired"),
          decrease_delay delay, 0, 1⟩
      else if status = 403 then
        ⟨some (.invalidCredentials (pyFormat code ++ ": " ++ msg)),
          decrease_delay delay, 0, 1⟩
      else
        ⟨some (.botoServerError status reason code msg), decrease_delay delay, 0, 1⟩
    | .clientError code =>
      if code = "Throttling" then
        let r := _call (increase_delay delay) rest
        { r with increases := r.increases + 1 }
      else
        ⟨some (.clientError code), decrease_delay delay, 0, 1⟩
    | e => ⟨some e, delay, 0, 0⟩

/-- An attempt outcome on which `_call` loops for another attempt instead of
terminating: a boto2 error with a throttle code, or a boto3 error with nested
code `'Throttling'`. -/
def isRetry : AttemptOutcome → Bool
  | .raised (.botoServerError _ _ code _) => is_boto2_throttle code
  | .raised (.clientError code) => code == "Throttling"
  | _ => false

/-- A script on which `_call` terminates: some outcome is not a retry. -/
def hasTerminal (s : List AttemptOutcome) : Bool :=
  s.any (fun o => !isRetry o)

/-- An outcome caught by neither `except` clause of `_call` (an exception of a
class other than `BotoServerError` / `ClientError`). -/
def isUncaught : AttemptOutcome → Bool
  | .raised (.botoServerError _ _ _ _) => false
  | .raised (.clientError _) => false
  | .raised _ => true
  | .ok _ => false

/-- One entry of the submission queue: the caller's identity together with the
script of outcomes its callable would produce on successive attempts. -/
structure PendingCall where
  id : ℕ
  script : List AttemptOutcome
  deriving DecidableEq, Repr

/-- `_process_queue(self)`: the single dispatcher loop.  Entries are dequeued
in FIFO order; `_call` runs on each (catching `BaseException` into the result),
the result object is put into that entry's private `result_queue`, and the loop
continues with the next entry.  An entry whose script never terminates keeps
the dispatcher retrying forever, so nothing behind it is ever processed. -/
def _process_queue (delay : ℚ) : List PendingCall → List (ℕ × PyObject)
  | [] => []
  | e :: rest =>
    match (_call delay e.script).result with
    | some r => (e.id, r) :: _process_queue (_call delay e.script).delay rest
    | none => []

/-- What `call(self, api_function, *args, **kwargs)` does with the object read
from its result queue: `if isinstance(result, Exception): raise result` else
return it. -/
inductive CallReturn where
  | returned (v : PyObject)
  | raisedExc (e : PyObject)
  deriving DecidableEq, Repr

def call_finish (result : PyObject) : CallReturn :=
  if isinstance_Exception result then .raisedExc result else .returned result

lemma call_retry_cons (d : ℚ) (o : AttemptOutcome) (rest : List AttemptOutcome)
    (h : isRetry o = true) :
    _call d (o :: rest) =
      { _call (increase_delay d) rest with
          increases := (_call (increase_delay d) rest).increases + 1 } := by
  cases o with
  | ok v => simp [isRetry] at h
  | raised e =>
    cases e with
    | botoServerError status reason code msg =>
      simp only [isRetry] at h
      simp [_call, h]
    | clientError code =>
      simp only [isRetry] at h
      have hc : code = "Throttling" := by simpa using h
      subst hc
      simp [_call]
    | obj s => simp [isRetry] at h
    | invalidCredentials m => simp [isRetry] at h
    | otherExc s => simp [isRetry] at h

lemma call_terminal_cons (d : ℚ) (o : AttemptOutcome) (rest : List AttemptOutcome)
    (h : isRetry o = false) :
    _call d (o :: rest) = _call d [o] := by
  cases o with
  | ok v => simp [_call]
  | raised e =>
    cases e with
    | botoServerError status reason code msg =>
      simp only [isRetry] at h
      simp [_call, h]
    | clientError code =>
      simp only [isRetry] at h
      have hc : code ≠ "Throttling" := by simpa using h
      simp [_call, hc]
    | obj s => simp [_call]
    | invalidCredentials m => simp [_call]
    | otherExc s => simp [_call]

/-- The object `_call` delivers depends only on the attempt script, never on
the backoff delay it starts from. -/
lemma call_result_const (s : List AttemptOutcome) :
    ∀ d d' : ℚ, (_call d s).result = (_call d' s).result := by
  induction s with
  | nil => intro d d'; rfl
  | cons o rest ih =>
    intro d d'
    by_cases h : isRetry o = true
    · rw [call_retry_cons d o rest h, call_retry_cons d' o rest h]
      exact ih _ _
    · have h' : isRetry o = false := by simpa using h
      rw [call_terminal_cons d o rest h', call_terminal_cons d' o rest h']
      cases o with
      | ok v => rfl
      | raised e =>
        cases e with
        | botoServerError status reason code msg =>
          simp only [_call]
          split_ifs <;> rfl
        | clientError code =>
          simp only [_call]
          split_ifs <;> rfl
        | obj s => rfl
        | invalidCredentials m => rfl
        | otherExc s => rfl

/-- On a terminal (non-retry) head, `_call` makes exactly this one attempt:
no `increase_delay`, one `decrease_delay` unless the exception is of a class
caught by neither `except` clause, and a delivered result. -/
lemma call_single_terminal (d : ℚ) (o : AttemptOutcome) (h : isRetry o = false) :
    (_call d [o]).increases = 0 ∧
    (_call d [o]).decreases = (if isUncaught o then 0 else 1) ∧
    ((_call d [o]).result).isSome = true := by
  cases o with
  | ok v => simp [_call, isUncaught]
  | raised e =>
    cases e with
    | botoServerError status reason code msg =>
      simp only [isRetry] at h
      simp only [_call, isUncaught, h]
      split_ifs <;> simp_all
    | clientError code =>
      simp only [isRetry] at h
      have hc : code ≠ "Throttling" := by simpa using h
      simp [_call, isUncaught, hc]
    | obj s => simp [_call, isUncaught]
    | invalidCredentials m => simp [_call, isUncaught]
    | otherExc s => simp [_call, isUncaught]

lemma call_result_isSome (s : List AttemptOutcome) :
    ∀ d : ℚ, hasTerminal s = true → ((_call d s).result).isSome = true := by
  induction s with
  | nil => intro d h; simp [hasTerminal] at h
  | cons o rest ih =>
    intro d h
    by_cases hr : isRetry o = true
    · have hrest : hasTerminal rest = true := by
        simpa [hasTerminal, hr] using h
      rw [call_retry_cons d o rest hr]
      exact ih _ hrest
    · have h' : isRetry o = false := by simpa using hr
      rw [call_terminal_cons d o rest h']
      exact (call_single_terminal d o h').2.2

lemma call_counts_aux (ts : List AttemptOutcome) (o : AttemptOutcome)
    (ho : isRetry o = false) :
    ∀ d : ℚ, (∀ t ∈ ts, isRetry t = true) →
      (_call d (ts ++ [o])).increases = ts.length ∧
      (_call d (ts ++ [o])).decreases = (if isUncaught o then 0 else 1) ∧
      ((_call d (ts ++ [o])).result).isSome = true := by
  induction ts with
  | nil =>
    intro d _
    simpa using call_single_terminal d o ho
  | cons t ts ih =>
    intro d hts
    have ht : isRetry t = true := hts t (List.mem_cons_self _ _)
    have hts' : ∀ t' ∈ ts, isRetry t' = true :=
      fun t' h' => hts t' (List.mem_cons_of_mem _ h')
    rw [List.cons_append, call_retry_cons d t (ts ++ [o]) ht]
    obtain ⟨h1, h2, h3⟩ := ih (increase_delay d) hts'
    refine ⟨?_, h2, h3⟩
    show (_call (increase_delay d) (ts ++ [o])).increases + 1 = ts.length + 1
    rw [h1]

/-- C1 (counterexample): an exception of a class other than the two client
error conventions — here `otherExc`, e.g. a `ValueError` — is delivered to the
caller as a terminal outcome, yet `decrease_delay` is invoked zero times, not
exactly once: it matches neither `except` clause of `_call` and propagates to
`_process_queue`'s `except BaseException` with no delay adjustment. -/
theorem kingpin_C1_counterexample :
    (_call 0 [.raised (.otherExc "boom")]).result = some (.otherExc "boom") ∧
    (_call 0 [.raised (.otherExc "boom")]).decreases = 0 :=
  ⟨rfl, rfl⟩

/-- C1 (amended): after any run of throttled attempts ended by a terminal
outcome, `increase_delay` was invoked exactly once per throttled attempt, and
`decrease_delay` exactly once if the terminal outcome is a success or an error
of one of the two client-error conventions — but zero times when the final
exception is of any other class, which propagates with no delay adjustment. -/
theorem kingpin_C1_decrease_on_terminal (d : ℚ) (ts : List AttemptOutcome)
    (o : AttemptOutcome) (hts : ∀ t ∈ ts, isRetry t = true)
    (ho : isRetry o = false) :
    (_call d (ts ++ [o])).increases = ts.length ∧
    (_call d (ts ++ [o])).decreases = (if isUncaught o then 0 else 1) ∧
    ((_call d (ts ++ [o])).result).isSome = true :=
  call_counts_aux ts o ho d hts

theorem kingpin_C1_witness :
    (_call 0 ([.raised (.clientError "Throttling")] ++ [.ok (.obj "v")])).increases = 1 ∧
    (_call 0 ([.raised (.clientError "Throttling")] ++ [.ok (.obj "v")])).decreases = 1 ∧
    ((_call 0 ([.raised (.clientError "Throttling")] ++ [.ok (.obj "v")])).result).isSome = true :=
  kingpin_C1_decrease_on_terminal 0 [.raised (.clientError "Throttling")] (.ok (.obj "v"))
    (by decide) (by decide)

/-- C5: every boto2 error whose code is in `boto2_throttle_strings` and every
boto3 error whose nested code is `"Throttling"` makes the protected call
increase the delay and retry the same callable on the remaining script — the
throttling error itself is never delivered.  The throttle test is the first
branch, so a boto2 error with a throttle code and HTTP status 403 is throttled,
not turned into a credential error (first match wins). -/
theorem kingpin_C5_throttling_retries (d : ℚ) (rest : List AttemptOutcome)
    (status : ℕ) (reason : String) (code : Option String) (msg : String)
    (code3 : String) :
    (is_boto2_throttle code = true →
      _call d (.raised (.botoServerError status reason code msg) :: rest) =
        { _call (increase_delay d) rest with
            increases := (_call (increase_delay d) rest).increases + 1 }) ∧
    (code3 = "Throttling" →
      _call d (.raised (.clientError code3) :: rest) =
        { _call (increase_delay d) rest with
            increases := (_call (increase_delay d) rest).increases + 1 }) := by
  constructor
  · intro h
    exact call_retry_cons d _ rest (by simpa [isRetry] using h)
  · intro h
    subst h
    exact call_retry_cons d _ rest (by simp [isRetry])

theorem kingpin_C5_witness :
    (_call 0 [.raised (.botoServerError 403 "Forbidden" (some "Rate exceeded") "slow"),
              .ok (.obj "v")] =
      { _call (increase_delay 0) [.ok (.obj "v")] with
          increases := (_call (increase_delay 0) [.ok (.obj "v")]).increases + 1 }) ∧
    (_call 0 [.raised (.clientError "Throttling"), .ok (.obj "v")] =
      { _call (increase_delay 0) [.ok (.obj "v")] with
          increases := (_call (increase_delay 0) [.ok (.obj "v")]).increases + 1 }) := by
  have h := kingpin_C5_throttling_retries 0 [.ok (.obj "v")] 403 "Forbidden"
    (some "Rate exceeded") "slow" "Throttling"
  exact ⟨h.1 (by decide), h.2 rfl⟩

/-- C6 (counterexample): a boto2 error with HTTP status 403 whose code is the
throttle code `"Throttling"` is not terminated into a credential error: the
throttle branch wins, the delay is increased and the call retried, so nothing
is delivered from this attempt. -/
theorem kingpin_C6_counterexample :
    (_call 0 [.raised (.botoServerError 403 "Forbidden" (some "Throttling")
      "Rate exceeded")]).result = none ∧
    (_call 0 [.raised (.botoServerError 403 "Forbidden" (some "Throttling")
      "Rate exceeded")]).increases = 1 :=
  ⟨rfl, rfl⟩

/-- C6 (amended): every boto2 error with HTTP status 403 whose code is not a
throttle code terminates the protected call without retrying, delivering
`InvalidCredentials` with message `"<code>: <message>"` (Python `%s`
formatting, so an absent code prints as `"None"`), after exactly one
`decrease_delay`. -/
theorem kingpin_C6_status_403 (d : ℚ) (reason : String) (code : Option String)
    (msg : String) (rest : List AttemptOutcome)
    (h : is_boto2_throttle code = false) :
    _call d (.raised (.botoServerError 403 reason code msg) :: rest) =
      ⟨some (.invalidCredentials (pyFormat code ++ ": " ++ msg)),
        decrease_delay d, 0, 1⟩ := by
  simp [_call, h]

theorem kingpin_C6_witness :
    _call 0 [.raised (.botoServerError 403 "Forbidden" (some "AccessDenied") "not allowed")] =
      ⟨some (.invalidCredentials "AccessDenied: not allowed"), decrease_delay 0, 0, 1⟩ :=
  kingpin_C6_status_403 0 "Forbidden" (some "AccessDenied") "not allowed" [] (by decide)

/-- C7 (counterexample): a boto2 error with HTTP status 400, reason
`"Bad Request"` and an empty-string (rather than absent) code is not classified
as a credential error: the code checks `e.error_code is None`, so the original
error propagates unchanged. -/
theorem kingpin_C7_counterexample :
    (_call 0 [.raised (.botoServerError 400 "Bad Request" (some "") "oops")]).result =
      some (.botoServerError 400 "Bad Request" (some "") "oops") :=
  rfl

/-- C7 (amended): every boto2 error with HTTP status 400, reason
`"Bad Request"` and an absent (`None`) code terminates the protected call
without retrying, delivering `InvalidCredentials` with message
`"Access credentials have expired"` after exactly one `decrease_delay`; an
empty-string code does not qualify. -/
theorem kingpin_C7_blank_400 (d : ℚ) (msg : String) (rest : List AttemptOutcome) :
    _call d (.raised (.botoServerError 400 "Bad Request" none msg) :: rest) =
      ⟨some (.invalidCredentials "Access credentials have expired"),
        decrease_delay d, 0, 1⟩ := by
  simp [_call, is_boto2_throttle]

/-- C8: the dispatcher drains the submission queue in strict FIFO order,
fully completing each entry before starting the next (the embedding is the
single sequential dispatcher coroutine, so at most one call is ever in
flight): provided every script terminates, the delivered results carry the
callers' identities in exactly submission order. -/
theorem kingpin_C8_fifo (d : ℚ) (entries : List PendingCall)
    (h : ∀ e ∈ entries, hasTerminal e.script = true) :
    (_process_queue d entries).map Prod.fst = entries.map PendingCall.id := by
  induction entries generalizing d with
  | nil => rfl
  | cons e rest ih =>
    have hsome := call_result_isSome e.script d (h e (List.mem_cons_self _ _))
    have hrest : ∀ e' ∈ rest, hasTerminal e'.script = true :=
      fun e' he' => h e' (List.mem_cons_of_mem _ he')
    cases hres : (_call d e.script).result with
    | none => rw [hres] at hsome; simp at hsome
    | some r =>
      simp only [_process_queue, hres, List.map_cons]
      exact congrArg (List.cons e.id) (ih _ hrest)

theorem kingpin_C8_witness :
    (_process_queue 0
      [⟨1, [.ok (.obj "a")]⟩,
       ⟨2, [.raised (.clientError "Throttling"), .ok (.obj "b")]⟩]).map Prod.fst = [1, 2] :=
  kingpin_C8_fifo 0 _ (by decide)

/-- C9: for every dequeued entry the dispatcher writes exactly one object into
that entry's private result queue — the outcome of that entry's own script
(success value, translated error, or any exception caught by
`except BaseException`) — and a failing call never terminates the dispatcher
loop: every later entry is still processed and delivered. -/
theorem kingpin_C9_result_channels (d : ℚ) (entries : List PendingCall)
    (h : ∀ e ∈ entries, hasTerminal e.script = true) :
    (_process_queue d entries).map (fun p => (p.1, some p.2)) =
      entries.map (fun e => (e.id, (_call 0 e.script).result)) := by
  induction entries generalizing d with
  | nil => rfl
  | cons e rest ih =>
    have hsome := call_result_isSome e.script d (h e (List.mem_cons_self _ _))
    have hrest : ∀ e' ∈ rest, hasTerminal e'.script = true :=
      fun e' he' => h e' (List.mem_cons_of_mem _ he')
    cases hres : (_call d e.script).result with
    | none => rw [hres] at hsome; simp at hsome
    | some r =>
      simp only [_process_queue, hres, List.map_cons]
      rw [call_result_const e.script 0 d, hres]
      exact congrArg (List.cons (e.id, some r)) (ih _ hrest)

theorem kingpin_C9_witness :
    (_process_queue 0
      [⟨1, [.raised (.otherExc "boom")]⟩,
       ⟨2, [.ok (.obj "b")]⟩]).map (fun p => (p.1, some p.2)) =
      [(1, some (PyObject.otherExc "boom")), (2, some (PyObject.obj "b"))] :=
  kingpin_C9_result_channels 0 _ (by decide)

/-- C10: `call` branches on `isinstance(result, Exception)` alone, so a
callable that succeeds but returns a value that is itself an `Exception`
instance has that value delivered through the result queue and then raised to
the caller, exactly like a genuine failure. -/
theorem kingpin_C10_exception_value_raised (d : ℚ) (v : PyObject)
    (h : isinstance_Exception v = true) :
    (_call d [.ok v]).result = some v ∧ call_finish v = .raisedExc v := by
  refine ⟨rfl, ?_⟩
  simp only [call_finish]
  rw [if_pos h]

theorem kingpin_C10_witness :
    (_call 0 [.ok (.invalidCredentials "m")]).result = some (.invalidCredentials "m") ∧
    call_finish (.invalidCredentials "m") = .raisedExc (.invalidCredentials "m") :=
  kingpin_C10_exception_value_raised 0 _ rfl

end Kingpin
